import Mathlib

/-!
# Verification of the Voice-Transcriber batch-orchestration layer

Shallow embedding of the parts of `DarkOracle10/Voice-Transcriber` that the
frozen claims are about:

* `src/persian_transcriber/cli.py` — argument parsing (`create_parser`),
  input validation (`validate_input`) and the CLI entry point (`main`);
* `src/persian_transcriber/utils/logging.py` — `setup_logging` and
  `get_logger` with their module-level caches;
* `examples/batch_processing.py` — the per-file batch loop of
  `example_1_transcribe_directory`.

External effects (the filesystem, the transcription engine, the
`PersianAudioTranscriber` methods whose module is not part of the supplied
sources) are passed in as explicit parameters, so the embedded control flow
is exactly the one written in the Python sources.
-/

namespace VoiceTranscriber

/-- Python exceptions distinguished by the `except` clauses of `cli.main`:
`FileNotFoundError`, `ValueError`, `KeyboardInterrupt`, and any other
`Exception`. -/
inductive PyExc where
  | fileNotFound (msg : String)
  | valueError (msg : String)
  | keyboardInterrupt
  | otherError (msg : String)
deriving Repr, DecidableEq

/-- Model of Python `str.startswith`: list-prefix test on the characters. -/
def pyStartsWith (s pre : String) : Bool :=
  pre.data.isPrefixOf s.data

/-- A character list is a prefix of itself followed by anything. -/
theorem isPrefixOf_append_self (l t : List Char) : l.isPrefixOf (l ++ t) = true := by
  induction l with
  | nil => simp [List.isPrefixOf]
  | cons a as ih => simp [List.isPrefixOf, ih]

/-- Minimal filesystem model: the sets of existing regular files and existing
directories, as seen by `Path.exists` and `Path.is_file`. -/
structure FS where
  files : List String := []
  dirs : List String := []
deriving Repr

/-- `Path(p).exists()` in the model. -/
def FS.exists? (fs : FS) (p : String) : Bool :=
  fs.files.contains p || fs.dirs.contains p

/-- `Path(p).is_file()` in the model. -/
def FS.isFile (fs : FS) (p : String) : Bool :=
  fs.files.contains p

/-- Last `/`-separated component of a path string (`Path.name`): scan the
characters, restarting the accumulator after each separator. -/
def lastName (p : String) : String :=
  String.mk (p.data.foldl (fun acc c => if c = '/' then [] else acc ++ [c]) [])

/-- Index of the last occurrence of `'.'` in a character list, if any. -/
def lastDotIdx (cs : List Char) : Option Nat :=
  ((cs.enum.filter (fun q => q.2 = '.')).map (fun q => q.1)).getLast?

/-- Model of `pathlib.PurePath.suffix`: the extension of the final component
including the dot, empty when the final component has no dot, starts with its
only dot, or ends with its last dot. -/
def pathSuffix (p : String) : String :=
  let n := lastName p
  match lastDotIdx n.data with
  | none => ""
  | some i => if 0 < i ∧ i < n.length - 1 then String.mk (n.data.drop i) else ""

/-- ASCII lowering of one character (the characters of real media extensions). -/
def lowerChar (c : Char) : Char :=
  if 65 ≤ c.toNat ∧ c.toNat ≤ 90 then Char.ofNat (c.toNat + 32) else c

/-- Model of Python `str.lower()` on ASCII strings: lower each character. -/
def pyLower (s : String) : String :=
  String.mk (s.data.map lowerChar)

/-- Embedding of `cli.validate_input` (cli.py lines 197-210), parameterised by
the `SUPPORTED_EXTENSIONS` set (a constant of the `transcriber` module, which
only its importer is among the supplied sources) and the filesystem.
`FileNotFoundError` realises the spec taxonomy name `PathNotFoundError`,
`ValueError` realises `UnsupportedFormatError`. -/
def validate_input (supported : List String) (fs : FS) (path : String) :
    Except PyExc String :=
  if ¬ fs.exists? path then
    .error (.fileNotFound ("Input path not found: " ++ path))
  else if fs.isFile path && !(supported.contains (pyLower (pathSuffix path))) then
    .error (.valueError ("Unsupported file format: " ++ pathSuffix path))
  else
    .ok path

/-! ## Argument parsing (`cli.create_parser`, cli.py lines 24-194)

The parser is modelled as a token-by-token fold over `argv`.  Each step either
consumes a flag, starts an option that waits for its value, consumes a pending
value, takes the single optional positional, or stops with argparse's exit
status: `0` for help and version requests, `2` for a usage error (unknown
option, invalid choice, missing option value, surplus positional).  The model
covers the space-separated spelling of options (not `--opt=value`, prefix
abbreviation or `--`), on which it agrees with argparse. -/

/-- `choices=["auto", "cuda", "cpu", "mps"]` of the device option (cli.py 84-90). -/
def deviceChoices : List String := ["auto", "cuda", "cpu", "mps"]

/-- `choices` of `--compute-type` (cli.py 92-97). -/
def computeTypeChoices : List String := ["float16", "int8", "int8_float16", "float32"]

/-- Modelled from the spec: the values of `EngineType` (`engines/base.py` is
not among the supplied sources).  The spec describes exactly two engines, the
local neural backend `faster_whisper` (the CLI default, cli.py 73) and the
cloud API backend `openai_api` (cli.py epilog example). -/
def engineChoices : List String := ["faster_whisper", "openai_api"]

/-- Modelled from the spec: the values of `OutputFormat` (the `output` module
is not among the supplied sources).  The spec names plain text, subtitle
format and structured JSON; the CLI default is `txt` (cli.py 118-124) and the
epilog shows `-f srt`. -/
def formatChoices : List String := ["txt", "srt", "json"]

/-- The namespace produced by `parser.parse_args`, with the defaults declared
in `create_parser`. -/
structure Args where
  input : Option String := none
  engine : String := "faster_whisper"
  model : String := "medium"
  device : String := "auto"
  computeType : Option String := none
  language : String := "fa"
  noNormalize : Bool := false
  format : String := "txt"
  output : Option String := none
  outputDir : Option String := none
  noSave : Bool := false
  timestamps : Bool := false
  recursive : Bool := false
  skipExisting : Bool := true
  noSkip : Bool := false
  apiKey : Option String := none
  verbose : Bool := false
  quiet : Bool := false
deriving Repr, DecidableEq

/-- An option that has been seen and is waiting for its value token. -/
inductive Pending where
  | engine | model | device | computeType | language
  | format | output | outputDir | apiKey
deriving Repr, DecidableEq

/-- Consume the value of a pending option, checking `choices` where
`create_parser` declares them. -/
def applyPending (a : Args) (p : Pending) (v : String) : Except Nat Args :=
  match p with
  | .engine => if engineChoices.contains v then .ok { a with engine := v } else .error 2
  | .model => .ok { a with model := v }
  | .device => if deviceChoices.contains v then .ok { a with device := v } else .error 2
  | .computeType =>
      if computeTypeChoices.contains v then .ok { a with computeType := some v } else .error 2
  | .language => .ok { a with language := v }
  | .format => if formatChoices.contains v then .ok { a with format := v } else .error 2
  | .output => .ok { a with output := some v }
  | .outputDir => .ok { a with outputDir := some v }
  | .apiKey => .ok { a with apiKey := some v }

/-- A store-true flag declared in `create_parser`. -/
inductive Flag where
  | noNormalize | noSave | timestamps | recursive | skipExisting | noSkip | verbose | quiet
deriving Repr, DecidableEq

/-- Set one store-true flag on the parsed namespace. -/
def setFlag (a : Args) (f : Flag) : Args :=
  match f with
  | .noNormalize => { a with noNormalize := true }
  | .noSave => { a with noSave := true }
  | .timestamps => { a with timestamps := true }
  | .recursive => { a with recursive := true }
  | .skipExisting => { a with skipExisting := true }
  | .noSkip => { a with noSkip := true }
  | .verbose => { a with verbose := true }
  | .quiet => { a with quiet := true }

/-- What a token means when no option is waiting for a value: immediate exit
(help, version), the start of a value-taking option, a store-true flag, or a
candidate positional. One case per `add_argument` call of `create_parser`. -/
inductive Act where
  | exitCode (n : Nat)
  | beginOpt (p : Pending)
  | setFlag (f : Flag)
  | positional
deriving Repr, DecidableEq

/-- The argument table of `create_parser`: every option string it declares,
with its meaning.  One entry per option string of each `add_argument` call. -/
def argTable : List (String × Act) :=
  [("-h", .exitCode 0), ("--help", .exitCode 0),
   ("-V", .exitCode 0), ("--version", .exitCode 0),
   ("-e", .beginOpt .engine), ("--engine", .beginOpt .engine),
   ("-m", .beginOpt .model), ("--model", .beginOpt .model),
   ("-d", .beginOpt .device), ("--device", .beginOpt .device),
   ("--compute-type", .beginOpt .computeType),
   ("-l", .beginOpt .language), ("--language", .beginOpt .language),
   ("--no-normalize", .setFlag .noNormalize),
   ("-f", .beginOpt .format), ("--format", .beginOpt .format),
   ("-o", .beginOpt .output), ("--output", .beginOpt .output),
   ("--output-dir", .beginOpt .outputDir),
   ("--no-save", .setFlag .noSave),
   ("--timestamps", .setFlag .timestamps),
   ("-r", .setFlag .recursive), ("--recursive", .setFlag .recursive),
   ("--skip-existing", .setFlag .skipExisting),
   ("--no-skip", .setFlag .noSkip),
   ("--api-key", .beginOpt .apiKey),
   ("-v", .setFlag .verbose), ("--verbose", .setFlag .verbose),
   ("-q", .setFlag .quiet), ("--quiet", .setFlag .quiet)]

/-- Classify one token against the argument table of `create_parser`; a token
matching no declared option string is a candidate positional. -/
def classify (t : String) : Act :=
  (argTable.lookup t).getD .positional

/-- One token of argparse processing. -/
def stepTok (s : Args × Option Pending) (t : String) : Except Nat (Args × Option Pending) :=
  match s.2 with
  | some p =>
      if pyStartsWith t "-" && t ≠ "-" then .error 2
      else (applyPending s.1 p t).map (fun a => (a, none))
  | none =>
      match classify t with
      | .exitCode n => .error n
      | .beginOpt p => .ok (s.1, some p)
      | .setFlag f => .ok (setFlag s.1 f, none)
      | .positional =>
          if pyStartsWith t "-" && t ≠ "-" then .error 2
          else if s.1.input = none then .ok ({ s.1 with input := some t }, none)
          else .error 2

/-- `parser.parse_args(argv)`: fold the tokens, then reject a dangling option
that never received its value.  `.error n` is `SystemExit(n)` raised by
argparse (so the process terminates with status `n`). -/
def parse_args (argv : List String) : Except Nat Args :=
  match argv.foldlM stepTok (({} : Args), none) with
  | .error n => .error n
  | .ok (_, some _) => .error 2
  | .ok (a, none) => .ok a

/-! ## The CLI entry point (`cli.main`, cli.py lines 218-329) -/

/-- The mapping a successful `transcribe_file` call returns, restricted to the
keys `main` reads.  Durations are kept as integers; only their rendering, not
their arithmetic, appears in the embedded code. -/
structure TFResult where
  text : String := ""
  outputPath : Option String := none
  duration : Int := 0
  processingTime : Int := 0
deriving Repr, DecidableEq

/-- A per-file record from `scan_and_transcribe`, restricted to the keys the
summary code of `main` reads: `r.get("file")` and the optional `"error"`. -/
structure BatchResult where
  file : Option String := none
  error : Option String := none
deriving Repr, DecidableEq

/-- Outcomes of the external calls `main` makes once per invocation:
construction of `PersianAudioTranscriber`, `transcribe_file`, and
`scan_and_transcribe` (the last as a function of the `skip_existing`
argument `main` passes it).  Each is an arbitrary result-or-exception. -/
structure Effects where
  ctor : Except PyExc Unit := .ok ()
  transcribeFile : Except PyExc TFResult := .ok {}
  scanResults : Bool → Except PyExc (List BatchResult) := fun _ => .ok []

/-- Something `main` prints to stdout: the help text or a line of text. -/
inductive OutEvent where
  | help
  | line (s : String)
deriving Repr, DecidableEq

/-- The summary line for one failed file (cli.py 311). -/
def failedLine (r : BatchResult) : String :=
  "    - " ++ r.file.getD "Unknown" ++ ": " ++ r.error.getD "Unknown error"

/-- The batch summary printed by `main` (cli.py 302-311): the completion
banner, the success count, and, when some result failed, one line per failed
file. -/
def summaryLines (rs : List BatchResult) : List OutEvent :=
  let successful := (rs.filter (fun r => r.error = none)).length
  [OutEvent.line "✓ Batch processing complete",
   OutEvent.line ("  Successful: " ++ toString successful ++ "/" ++ toString rs.length)] ++
  (if successful < rs.length then
    OutEvent.line "  Failed files:" ::
      rs.filterMap (fun r =>
        if r.error.isSome then some (OutEvent.line (failedLine r)) else none)
  else [])

/-- The lines printed on a saved single-file transcription (cli.py 286-288). -/
def savedLines (r : TFResult) : List OutEvent :=
  [OutEvent.line ("✓ Transcription saved to: " ++ r.outputPath.getD "N/A"),
   OutEvent.line ("  Duration: " ++ toString r.duration),
   OutEvent.line ("  Processing time: " ++ toString r.processingTime)]

/-- The `skip_existing` value `main` passes to `scan_and_transcribe`
(cli.py 292): `not args.no_skip`. -/
def mainSkipExisting (a : Args) : Bool := !a.noSkip

/-- The body of `main` inside its `try` block, after the input check: validate
the input, build the transcriber, then branch on file versus directory. -/
def mainBody (supported : List String) (fs : FS) (eff : Effects) (a : Args)
    (inp : String) : Except PyExc (List OutEvent) := do
  let p ← validate_input supported fs inp
  let _ ← eff.ctor
  if fs.isFile p then
    let r ← eff.transcribeFile
    if a.noSave then pure [OutEvent.line r.text]
    else pure (savedLines r)
  else
    let rs ← eff.scanResults (mainSkipExisting a)
    pure (summaryLines rs)

/-- Embedding of `cli.main` (cli.py 218-329) as the process exit status and
the stdout events, for a run `sys.exit(main(argv))`.  A `SystemExit` raised by
argparse carries its own status; an empty-or-missing input prints help and
returns 1; exceptions escaping the `try` body map to 1, except
`KeyboardInterrupt`, which prints a notice and maps to 130.  `setup_logging`
is a logging-state effect with no stdout output and is modelled separately
(see the logging section). -/
def main (supported : List String) (fs : FS) (eff : Effects) (argv : List String) :
    Nat × List OutEvent :=
  match parse_args argv with
  | .error n => (n, [])
  | .ok a =>
    if a.input.getD "" = "" then (1, [OutEvent.help])
    else
      match mainBody supported fs eff a (a.input.getD "") with
      | .ok evs => (0, evs)
      | .error .keyboardInterrupt => (130, [OutEvent.line "Interrupted by user"])
      | .error _ => (1, [])

/-! ## The batch loop of `examples/batch_processing.py`
(`example_1_transcribe_directory`, lines 48-66) -/

/-- The result dictionary the example loop appends per file: on success
`{file, text, duration, success: True}`, on failure
`{file, error, success: False}`. -/
structure ExResult where
  file : String
  text : Option String := none
  duration : Option Int := none
  success : Bool
  error : Option String := none
deriving Repr, DecidableEq

/-- Embedding of the per-file loop of `example_1_transcribe_directory`
(batch_processing.py 48-66): for each discovered file, call the engine inside
`try`, append a success record on return and a failure record carrying
`str(e)` on an exception, then continue with the next file.  The engine is the
external `transcriber.transcribe_file`, modelled as a function from the file
to a result or a raised exception message. -/
def transcribeBatch (engine : String → Except String TFResult)
    (files : List String) : List ExResult :=
  files.map (fun f =>
    match engine f with
    | .ok r => { file := f, text := some r.text, duration := some r.duration, success := true }
    | .error e => { file := f, error := some e, success := false })

/-! ## Configuration resolution -/

/-- A fully resolved configuration (the fields the claims exercise). -/
structure ResolvedTC where
  language : String := "fa"
  engineType : String := "faster_whisper"
  modelSize : String := "medium"
  device : String := "auto"
  outputFormat : String := "txt"
deriving Repr, DecidableEq

/-- One layer of configuration, every field optional; a missing field falls
through to the next lower precedence layer. -/
structure PartialTC where
  language : Option String := none
  engineType : Option String := none
  modelSize : Option String := none
  device : Option String := none
  outputFormat : Option String := none
deriving Repr, DecidableEq

/-- Modelled from the spec: the configuration resolver of `config.py`
(`TranscriberConfig` and its merge logic are not among the supplied sources;
only their caller `cli.main` is).  Spec section 4.1: precedence, lowest to
highest, is built-in defaults < file-based config < environment-variable
overrides < explicit caller-supplied overrides, each missing optional field
falling through to the next lower layer, and resolution fails with a
`ConfigurationError` when a required enumerated field such as the engine type
resolves to an invalid value. -/
def resolveConfig (defaults : ResolvedTC)
    (fileCfg envCfg explicitCfg : PartialTC) : Except String ResolvedTC :=
  let merged : ResolvedTC :=
    { language := explicitCfg.language.getD (envCfg.language.getD
        (fileCfg.language.getD defaults.language))
      engineType := explicitCfg.engineType.getD (envCfg.engineType.getD
        (fileCfg.engineType.getD defaults.engineType))
      modelSize := explicitCfg.modelSize.getD (envCfg.modelSize.getD
        (fileCfg.modelSize.getD defaults.modelSize))
      device := explicitCfg.device.getD (envCfg.device.getD
        (fileCfg.device.getD defaults.device))
      outputFormat := explicitCfg.outputFormat.getD (envCfg.outputFormat.getD
        (fileCfg.outputFormat.getD defaults.outputFormat)) }
  if engineChoices.contains merged.engineType then .ok merged
  else .error "ConfigurationError: invalid engine type"

/-! ## Logging (`utils/logging.py`)

The Python `logging` module state is modelled explicitly: a registry mapping
logger names to logger identities (`logging.getLogger` is a per-name
singleton), the attributes of the package root logger
`"persian_transcriber"`, and the module-level globals `_loggers`,
`_config_cache` and `_initialized` of `utils/logging.py`.  Formatter objects
(format strings, colors) configure how handlers render records and are left
opaque; the handler structure itself — which handlers exist, with which level
and target — is modelled. -/

/-- The package logger name prefix. -/
def pkgName : String := "persian_transcriber"

/-- A handler attached to the package root logger: the `StreamHandler` on
stderr with the console level, or the `FileHandler` on a path (its level is
always DEBUG, logging.py 312). -/
inductive Handler where
  | console (lvl : Nat)
  | file (path : String)
deriving Repr, DecidableEq

/-- `Handler.isConsole` -/
def Handler.isConsole : Handler → Bool
  | .console _ => true
  | .file _ => false

/-- `Handler.isFile` -/
def Handler.isFile : Handler → Bool
  | .console _ => false
  | .file _ => true

/-- Mutable attributes of the package root logger. -/
structure RootLogger where
  handlers : List Handler := []
  propagate : Bool := true
  level : Nat := 30
deriving Repr, DecidableEq

/-- The `logging` section of `config.yaml` as `_load_config` returns it
(the fields the embedded code reads). -/
structure LogConfig where
  level : String := "INFO"
  logFilePath : Option String := none
deriving Repr, DecidableEq

/-- The process-wide logging state. -/
structure LogState where
  root : RootLogger := {}
  registry : List (String × Nat) := []
  nextId : Nat := 0
  loggersCache : List (String × Nat) := []
  configCache : Option LogConfig := none
  initialized : Bool := false
deriving Repr, DecidableEq

/-- Association-list lookup used by the registry and the `_loggers` cache. -/
def lookupStr (l : List (String × Nat)) (k : String) : Option Nat :=
  match l with
  | [] => none
  | (n, v) :: t => if n = k then some v else lookupStr t k

/-- `logging.getLogger(name)`: the per-name singleton, allocated on first
use. -/
def getLoggerRegistry (st : LogState) (name : String) : Nat × LogState :=
  match lookupStr st.registry name with
  | some i => (i, st)
  | none => (st.nextId,
      { st with registry := (name, st.nextId) :: st.registry, nextId := st.nextId + 1 })

/-- `_load_config` (logging.py 60-108): return the cached configuration, or
read it from disk (`disk` stands for the config.yaml contents merged over
`DEFAULT_CONFIG`) and cache it. -/
def loadConfig (disk : LogConfig) (st : LogState) : LogConfig × LogState :=
  match st.configCache with
  | some c => (c, st)
  | none => (disk, { st with configCache := some disk })

/-- `getattr(logging, s.upper(), logging.INFO)`: the numeric level of a level
name, defaulting to INFO (the level-name attributes of the `logging`
module). -/
def levelOf (s : String) : Nat :=
  if s.toUpper = "DEBUG" then 10
  else if s.toUpper = "INFO" then 20
  else if s.toUpper = "WARNING" then 30
  else if s.toUpper = "WARN" then 30
  else if s.toUpper = "ERROR" then 40
  else if s.toUpper = "CRITICAL" then 50
  else if s.toUpper = "FATAL" then 50
  else if s.toUpper = "NOTSET" then 0
  else 20

/-- The parameters of `setup_logging` the handler structure depends on
(format and color parameters configure formatters, which are opaque here). -/
structure SetupArgs where
  level : Option String := none
  logFile : Option String := none
  quiet : Bool := false
  verbose : Bool := false
deriving Repr, DecidableEq

/-- Level resolution of `setup_logging` (logging.py 250-257): `verbose` wins,
then the explicit `level` argument, then the configured level. -/
def resolveLevel (args : SetupArgs) (cfg : LogConfig) : Nat :=
  if args.verbose then 10
  else match args.level with
    | some s => levelOf s
    | none => levelOf cfg.level

/-- Log-file resolution of `setup_logging` (logging.py 260-266): the explicit
argument, else the configured `log_file_path` when truthy (the `{date}` and
`{time}` placeholder expansion substitutes into the same string and does not
affect presence). -/
def resolveLogFile (args : SetupArgs) (cfg : LogConfig) : Option String :=
  match args.logFile with
  | some f => some f
  | none => match cfg.logFilePath with
    | some f => if f = "" then none else some f
    | none => none

/-- The handler list `setup_logging` builds from scratch on every call
(logging.py 288-319): a console handler unless `quiet`, then a file handler
when a log file is resolved. -/
def freshHandlers (quiet : Bool) (lvl : Nat) (logFile : Option String) : List Handler :=
  (if quiet then [] else [Handler.console lvl]) ++
  (match logFile with
   | some f => [Handler.file f]
   | none => [])

/-- Embedding of `setup_logging` (logging.py 207-326): load the config,
resolve level and log file, clear the root logger handlers, set its level,
attach the fresh handlers, set `propagate = False` and mark the module
initialized. -/
def setup_logging (disk : LogConfig) (args : SetupArgs) (st : LogState) : LogState :=
  let (cfg, st1) := loadConfig disk st
  let lvl := resolveLevel args cfg
  let lf := resolveLogFile args cfg
  { st1 with
      root := { handlers := freshHandlers args.quiet lvl lf, propagate := false, level := lvl }
      initialized := true }

/-- The name normalization of `get_logger` (logging.py 354-355). -/
def normName (name : String) : String :=
  if pyStartsWith name pkgName then name else pkgName ++ "." ++ name

/-- The cache phase of `get_logger` (logging.py 357-360): return the
`_loggers` entry for the normalized name, creating it through
`logging.getLogger` when absent. -/
def getLoggerCore (st0 : LogState) (n : String) : Nat × LogState :=
  match lookupStr st0.loggersCache n with
  | some i => (i, st0)
  | none =>
      let r := getLoggerRegistry st0 n
      (r.1, { r.2 with loggersCache := (n, r.1) :: r.2.loggersCache })

/-- Embedding of `get_logger` (logging.py 329-360): auto-initialize on first
use, normalize the name under the package prefix, and return the `_loggers`
cache entry, creating it through `logging.getLogger` when absent. -/
def get_logger (disk : LogConfig) (st : LogState) (name : String) : Nat × LogState :=
  getLoggerCore (if st.initialized then st else setup_logging disk {} st) (normName name)

/-! ## Parser lemmas -/

/-- `applyPending` only fails with argparse status 2. -/
theorem applyPending_error_eq_two (a : Args) (p : Pending) (v : String) (n : Nat)
    (h : applyPending a p v = .error n) : n = 2 := by
  cases p <;> simp only [applyPending] at h <;>
    (try split at h) <;>
    first
      | (injection h; done)
      | (injection h with h2; omega)

/-- `applyPending` never touches the `no_skip` flag. -/
theorem applyPending_noSkip (a : Args) (p : Pending) (v : String) (a2 : Args)
    (h : applyPending a p v = .ok a2) : a2.noSkip = a.noSkip := by
  cases p <;> simp only [applyPending] at h <;>
    (try split at h) <;>
    first
      | (injection h; done)
      | (injection h with h2; subst h2; rfl)

/-- A successful association-list lookup finds a pair of the list. -/
theorem lookup_pair_mem (tbl : List (String × Act)) (t : String) (a : Act)
    (h : tbl.lookup t = some a) : (t, a) ∈ tbl := by
  induction tbl with
  | nil => simp [List.lookup] at h
  | cons e es ih =>
      obtain ⟨k, v⟩ := e
      rw [List.lookup] at h
      by_cases hb : t = k
      · have hbe : (t == k) = true := beq_iff_eq.mpr hb
        simp only [hbe] at h
        injection h with h2
        subst h2 hb
        exact List.mem_cons_self _ _
      · have hbe : (t == k) = false := by simpa using hb
        simp only [hbe] at h
        exact List.mem_cons_of_mem _ (ih h)

/-- `classify` exits only with status 0. -/
theorem classify_exitCode_zero (t : String) (n : Nat)
    (h : classify t = .exitCode n) : n = 0 := by
  simp only [classify] at h
  rcases hl : argTable.lookup t with _ | a <;> rw [hl] at h
  · exact absurd h (by simp)
  · simp only [Option.getD] at h
    subst h
    have hm := lookup_pair_mem argTable t (.exitCode n) hl
    simp only [argTable, List.mem_cons, Prod.mk.injEq, List.not_mem_nil, or_false] at hm
    rcases hm with ⟨_, h0⟩ | ⟨_, h0⟩ | ⟨_, h0⟩ | ⟨_, h0⟩ <;> simp_all

/-- Only the token `--no-skip` classifies as the `no_skip` flag. -/
theorem classify_noSkip_only (t : String)
    (h : classify t = .setFlag .noSkip) : t = "--no-skip" := by
  simp only [classify] at h
  rcases hl : argTable.lookup t with _ | a <;> rw [hl] at h
  · exact absurd h (by simp)
  · simp only [Option.getD] at h
    subst h
    have hm := lookup_pair_mem argTable t (.setFlag .noSkip) hl
    simp only [argTable, List.mem_cons, Prod.mk.injEq, List.not_mem_nil, or_false] at hm
    simp_all

/-- Setting any flag other than `no_skip` leaves `no_skip` unchanged. -/
theorem setFlag_noSkip_other (a : Args) (f : Flag) (hf : f ≠ Flag.noSkip) :
    (setFlag a f).noSkip = a.noSkip := by
  cases f <;> first | rfl | exact absurd rfl hf

/-- A step on any token other than `--no-skip` leaves the `no_skip` flag
unchanged. -/
theorem stepTok_noSkip_other (s s2 : Args × Option Pending) (t : String)
    (ht : t ≠ "--no-skip") (h : stepTok s t = .ok s2) : s2.1.noSkip = s.1.noSkip := by
  obtain ⟨a, op⟩ := s
  cases op with
  | some p =>
      simp only [stepTok] at h
      split at h
      · exact absurd h (by simp)
      · rcases hap : applyPending a p t with m | a2 <;> rw [hap] at h <;>
          simp only [Except.map] at h
        · exact absurd h (by simp)
        · injection h with h2
          subst h2
          exact applyPending_noSkip a p t a2 hap
  | none =>
      simp only [stepTok] at h
      rcases hc : classify t with n | p | f | _ <;> rw [hc] at h
      · exact absurd h (by simp)
      · injection h with h2
        subst h2
        rfl
      · injection h with h2
        subst h2
        refine setFlag_noSkip_other a f (fun hf => ht ?_)
        exact classify_noSkip_only t (hf ▸ hc)
      · split_ifs at h <;>
          first
            | (injection h; done)
            | (injection h with h2; subst h2; rfl)

/-- A step on the token `--no-skip` that succeeds sets the `no_skip` flag. -/
theorem stepTok_noSkip_self (s s2 : Args × Option Pending)
    (h : stepTok s "--no-skip" = .ok s2) : s2.1.noSkip = true := by
  obtain ⟨a, op⟩ := s
  cases op with
  | some p =>
      have hred : stepTok (a, some p) "--no-skip" = .error 2 := rfl
      rw [hred] at h
      exact absurd h (by simp)
  | none =>
      have hred : stepTok (a, none) "--no-skip" =
          .ok (setFlag a .noSkip, none) := rfl
      rw [hred] at h
      injection h with h2
      subst h2
      rfl

/-- A step preserves an already-set `no_skip` flag. -/
theorem stepTok_noSkip_mono (s s2 : Args × Option Pending) (t : String)
    (hs : s.1.noSkip = true) (h : stepTok s t = .ok s2) : s2.1.noSkip = true := by
  by_cases ht : t = "--no-skip"
  · subst ht
    exact stepTok_noSkip_self s s2 h
  · rw [stepTok_noSkip_other s s2 t ht h]
    exact hs

/-- `stepTok` only fails with argparse status 0 (help, version) or 2. -/
theorem stepTok_error_code (s : Args × Option Pending) (t : String) (n : Nat)
    (h : stepTok s t = .error n) : n = 0 ∨ n = 2 := by
  obtain ⟨a, op⟩ := s
  cases op with
  | some p =>
      simp only [stepTok] at h
      split at h
      · injection h with h2
        omega
      · rcases hap : applyPending a p t with m | a2 <;> rw [hap] at h <;>
          simp only [Except.map] at h
        · injection h with h2
          subst h2
          exact Or.inr (applyPending_error_eq_two a p t m hap)
        · exact absurd h (by simp)
  | none =>
      simp only [stepTok] at h
      rcases hc : classify t with m | p | f | _ <;> rw [hc] at h
      · injection h with h2
        subst h2
        exact Or.inl (classify_exitCode_zero t m hc)
      · exact absurd h (by simp)
      · exact absurd h (by simp)
      · split_ifs at h <;>
          first
            | (injection h; done)
            | (injection h with h2; omega)

/-- A successful parse over tokens not containing `--no-skip` leaves the
`no_skip` flag as it started. -/
theorem foldlM_noSkip_not_mem (l : List String) :
    ∀ s r : Args × Option Pending, l.foldlM stepTok s = .ok r →
      "--no-skip" ∉ l → r.1.noSkip = s.1.noSkip := by
  induction l with
  | nil =>
      intro s r h _
      simp only [List.foldlM_nil] at h
      injection h with h2
      subst h2
      rfl
  | cons t ts ih =>
      intro s r h hmem
      rw [List.foldlM_cons] at h
      rcases hstep : stepTok s t with n | s2 <;> rw [hstep] at h
      · exact absurd h (by simp [Bind.bind, Except.bind])
      · simp only [Bind.bind, Except.bind] at h
        have h1 := ih s2 r h (fun hm => hmem (List.mem_cons_of_mem _ hm))
        have h2 := stepTok_noSkip_other s s2 t
          (fun he => hmem (he ▸ List.mem_cons_self t ts)) hstep
        rw [h1, h2]

/-- A successful parse preserves an already-set `no_skip` flag. -/
theorem foldlM_noSkip_mono (l : List String) :
    ∀ s r : Args × Option Pending, l.foldlM stepTok s = .ok r →
      s.1.noSkip = true → r.1.noSkip = true := by
  induction l with
  | nil =>
      intro s r h hs
      simp only [List.foldlM_nil] at h
      injection h with h2
      subst h2
      exact hs
  | cons t ts ih =>
      intro s r h hs
      rw [List.foldlM_cons] at h
      rcases hstep : stepTok s t with n | s2 <;> rw [hstep] at h
      · exact absurd h (by simp [Bind.bind, Except.bind])
      · simp only [Bind.bind, Except.bind] at h
        exact ih s2 r h (stepTok_noSkip_mono s s2 t hs hstep)

/-- A successful parse over tokens containing `--no-skip` ends with the
`no_skip` flag set. -/
theorem foldlM_noSkip_mem (l : List String) :
    ∀ s r : Args × Option Pending, l.foldlM stepTok s = .ok r →
      "--no-skip" ∈ l → r.1.noSkip = true := by
  induction l with
  | nil =>
      intro s r _ hmem
      exact absurd hmem (List.not_mem_nil _)
  | cons t ts ih =>
      intro s r h hmem
      rw [List.foldlM_cons] at h
      rcases hstep : stepTok s t with n | s2 <;> rw [hstep] at h
      · exact absurd h (by simp [Bind.bind, Except.bind])
      · simp only [Bind.bind, Except.bind] at h
        rcases List.mem_cons.mp hmem with he | hm
        · exact foldlM_noSkip_mono ts s2 r h (stepTok_noSkip_self s s2 (he ▸ hstep))
        · exact ih s2 r h hm

/-- A failed parse fails with argparse status 0 or 2. -/
theorem foldlM_error_code (l : List String) :
    ∀ (s : Args × Option Pending) (n : Nat), l.foldlM stepTok s = .error n →
      n = 0 ∨ n = 2 := by
  induction l with
  | nil =>
      intro s n h
      simp only [List.foldlM_nil] at h
      exact absurd h (by simp [Pure.pure, Except.pure])
  | cons t ts ih =>
      intro s n h
      rw [List.foldlM_cons] at h
      rcases hstep : stepTok s t with m | s2 <;> rw [hstep] at h
      · simp only [Bind.bind, Except.bind] at h
        injection h with h2
        subst h2
        exact stepTok_error_code s t m hstep
      · simp only [Bind.bind, Except.bind] at h
        exact ih s2 n h

/-- `parse_args` rejects an invocation only with argparse status 0 or 2. -/
theorem parse_args_error_code (argv : List String) (n : Nat)
    (h : parse_args argv = .error n) : n = 0 ∨ n = 2 := by
  unfold parse_args at h
  rcases hf : argv.foldlM stepTok (({} : Args), none) with m | s <;> rw [hf] at h
  · injection h with h2
    subst h2
    exact foldlM_error_code argv _ m hf
  · obtain ⟨a, op⟩ := s
    cases op
    · exact absurd h (by simp)
    · injection h with h2
      omega

/-- The `no_skip` flag of a successfully parsed invocation is exactly the
presence of the `--no-skip` token. -/
theorem parse_args_noSkip (argv : List String) (a : Args)
    (h : parse_args argv = .ok a) :
    ("--no-skip" ∉ argv → a.noSkip = false) ∧
    ("--no-skip" ∈ argv → a.noSkip = true) := by
  unfold parse_args at h
  rcases hf : argv.foldlM stepTok (({} : Args), none) with m | s <;> rw [hf] at h
  · exact absurd h (by simp)
  · obtain ⟨a2, op⟩ := s
    cases op
    · injection h with h2
      subst h2
      constructor
      · intro hnm
        exact foldlM_noSkip_not_mem argv _ _ hf hnm
      · intro hm
        exact foldlM_noSkip_mem argv _ _ hf hm
    · exact absurd h (by simp)

/-! ## Claim theorems -/

/-- Results split by presence of the error field: the two filters partition
the batch records. -/
theorem batchResult_error_partition (rs : List BatchResult) :
    (rs.filter (fun r => r.error = none)).length +
      (rs.filter (fun r => r.error.isSome)).length = rs.length := by
  induction rs with
  | nil => rfl
  | cons r t ih =>
      rcases hr : r.error with _ | e <;>
        simp [List.filter_cons, hr] <;> omega

/-- Results of the example batch loop split by presence of the error field:
the two filters partition the records. -/
theorem exResult_error_partition (rs : List ExResult) :
    (rs.filter (fun r => r.error = none)).length +
      (rs.filter (fun r => r.error.isSome)).length = rs.length := by
  induction rs with
  | nil => rfl
  | cons r t ih =>
      rcases hr : r.error with _ | e <;>
        simp [List.filter_cons, hr] <;> omega

/-- C1.  Failure isolation in the batch loop of
`example_1_transcribe_directory`: for a discovered list of N files whose
engine call raises on the file at position k, the loop still produces exactly
N per-item results; the k-th result is a failure record carrying the raised
error message, and every other item whose engine call returns normally yields
its normal success record, regardless of the position k. -/
theorem batch_failure_isolation (engine : String → Except String TFResult)
    (files : List String) (k : Nat) (fk : String) (e : String)
    (hk : files[k]? = some fk) (he : engine fk = .error e) :
    (transcribeBatch engine files).length = files.length ∧
    (transcribeBatch engine files)[k]? =
      some { file := fk, success := false, error := some e } ∧
    (∀ (j : Nat) (fj : String) (r : TFResult), j ≠ k → files[j]? = some fj →
      engine fj = .ok r →
      (transcribeBatch engine files)[j]? =
        some { file := fj, text := some r.text, duration := some r.duration,
               success := true }) := by
  refine ⟨by simp [transcribeBatch], ?_, ?_⟩
  · simp [transcribeBatch, List.getElem?_map, hk, he]
  · intro j fj r _ hj hr
    simp [transcribeBatch, List.getElem?_map, hj, hr]

/-- Concrete engine for the witnesses: fails on `b.wav` with the message
`decode failed`, succeeds elsewhere. -/
def egW : String → Except String TFResult := fun f =>
  if f = "b.wav" then .error "decode failed"
  else .ok { text := "hello", duration := 2 }

/-- Concrete file list for the witnesses. -/
def filesW : List String := ["a.mp3", "b.wav", "c.mp3"]

/-- Witness for C1 at the concrete three-file batch whose middle item fails. -/
theorem batch_failure_isolation_witness :
    (transcribeBatch egW filesW).length = filesW.length ∧
    (transcribeBatch egW filesW)[1]? =
      some { file := "b.wav", success := false, error := some "decode failed" } ∧
    (transcribeBatch egW filesW)[0]? =
      some { file := "a.mp3", text := some "hello", duration := some 2,
             success := true } := by
  have h := batch_failure_isolation egW filesW 1 "b.wav" "decode failed"
    (by decide) (by rfl)
  exact ⟨h.1, h.2.1, h.2.2 0 "a.mp3" { text := "hello", duration := 2 }
    (by decide) (by decide) (by rfl)⟩

/-- C8.  Every record the example batch loop produces carries the error field
exactly when it lacks the success payload (and its success flag mirrors
this), so partitioning the results by presence of the error field counts
every result exactly once: successes plus failures equal the total. -/
theorem batch_result_exclusive_payload (engine : String → Except String TFResult)
    (files : List String) :
    (∀ r ∈ transcribeBatch engine files,
      (r.error.isSome = true ↔ r.text = none) ∧
      (r.error = none ↔ r.success = true)) ∧
    (((transcribeBatch engine files).filter (fun r => r.error = none)).length +
      ((transcribeBatch engine files).filter (fun r => r.error.isSome)).length =
      (transcribeBatch engine files).length) := by
  constructor
  · intro r hr
    rcases List.mem_map.mp hr with ⟨f, _, hf⟩
    rcases hef : engine f with e | v <;> rw [hef] at hf <;> subst hf <;> simp
  · exact exResult_error_partition _

/-- Witness for C8 at the concrete three-file batch. -/
theorem batch_result_exclusive_payload_witness :
    ((({ file := "b.wav", success := false, error := some "decode failed" } :
        ExResult).error.isSome = true ↔
      ({ file := "b.wav", success := false, error := some "decode failed" } :
        ExResult).text = none) ∧
     (({ file := "b.wav", success := false, error := some "decode failed" } :
        ExResult).error = none ↔
      ({ file := "b.wav", success := false, error := some "decode failed" } :
        ExResult).success = true)) ∧
    (((transcribeBatch egW filesW).filter (fun r => r.error = none)).length +
      ((transcribeBatch egW filesW).filter (fun r => r.error.isSome)).length =
      (transcribeBatch egW filesW).length) := by
  have h := batch_result_exclusive_payload egW filesW
  exact ⟨h.1 _ (by decide), h.2⟩

/-- C2 counterexample.  The invocation `-d bogus` is rejected by argparse
with exit status 2, which is outside {0, 1, 130}: an invocation can terminate
with a code the claim does not allow. -/
theorem main_exit_code_counterexample :
    (main [".mp3"] {} {} ["-d", "bogus"]).1 = 2 ∧
    ¬((2 : Nat) = 0 ∨ (2 : Nat) = 1 ∨ (2 : Nat) = 130) := by
  constructor
  · rfl
  · decide

/-- C2 (amended).  For every invocation whose arguments the argparse layer
accepts, `main` returns an exit code in {0, 1, 130}: 0 on success, 1 on a
general or validation error, 130 on `KeyboardInterrupt`.  An invocation the
argparse layer rejects terminates with argparse's own status, which is 2 for
a usage error and 0 for a help or version request. -/
theorem main_exit_codes (supported : List String) (fs : FS) (eff : Effects)
    (argv : List String) :
    (∀ a : Args, parse_args argv = .ok a →
      ((main supported fs eff argv).1 = 0 ∨ (main supported fs eff argv).1 = 1 ∨
        (main supported fs eff argv).1 = 130)) ∧
    (∀ n : Nat, parse_args argv = .error n →
      (main supported fs eff argv).1 = n ∧ (n = 0 ∨ n = 2)) := by
  constructor
  · intro a ha
    simp only [main, ha]
    split
    · simp
    · rcases hb : mainBody supported fs eff a (a.input.getD "") with e | evs
      · cases e <;> simp
      · simp
  · intro n hn
    refine ⟨?_, parse_args_error_code argv n hn⟩
    simp [main, hn]

/-- Witness for C2 at two concrete invocations: the empty invocation parses
and exits 1, and the invalid device choice is rejected with status 2. -/
theorem main_exit_codes_witness :
    ((main [".mp3"] {} {} []).1 = 0 ∨ (main [".mp3"] {} {} []).1 = 1 ∨
      (main [".mp3"] {} {} []).1 = 130) ∧
    ((main [".mp3"] {} {} ["-d", "bogus"]).1 = 2 ∧ ((2 : Nat) = 0 ∨ (2 : Nat) = 2)) :=
  ⟨(main_exit_codes [".mp3"] {} {} []).1 {} rfl,
   (main_exit_codes [".mp3"] {} {} ["-d", "bogus"]).2 2 rfl⟩

/-- C7.  An invocation that supplies no input path parses successfully, and
`main` prints the help text and returns exit status 1. -/
theorem main_no_input_prints_help (supported : List String) (fs : FS)
    (eff : Effects) (argv : List String) (a : Args)
    (ha : parse_args argv = .ok a) (hi : a.input = none) :
    main supported fs eff argv = (1, [OutEvent.help]) := by
  simp [main, ha, hi]

/-- Witness for C7 at the empty invocation. -/
theorem main_no_input_prints_help_witness :
    main [".mp3"] {} {} [] = (1, [OutEvent.help]) :=
  main_no_input_prints_help [".mp3"] {} {} [] {} rfl rfl

/-- C5.  The skip-existing policy `main` hands to `scan_and_transcribe` is on
by default and overridden by `--no-skip`: an accepted invocation mentioning
neither skip flag runs with `skip_existing = True`, and one carrying
`--no-skip` runs with `skip_existing = False`. -/
theorem main_skip_existing_policy (argv : List String) (a : Args)
    (h : parse_args argv = .ok a) :
    (("--skip-existing" ∉ argv ∧ "--no-skip" ∉ argv) → mainSkipExisting a = true) ∧
    ("--no-skip" ∈ argv → mainSkipExisting a = false) := by
  have hns := parse_args_noSkip argv a h
  constructor
  · intro hnone
    simp [mainSkipExisting, hns.1 hnone.2]
  · intro hmem
    simp [mainSkipExisting, hns.2 hmem]

/-- Witness for C5 at two concrete invocations. -/
theorem main_skip_existing_policy_witness :
    mainSkipExisting { input := some "x.mp3" } = true ∧
    mainSkipExisting { input := some "x.mp3", noSkip := true } = false :=
  ⟨(main_skip_existing_policy ["x.mp3"] { input := some "x.mp3" } rfl).1
      ⟨by decide, by decide⟩,
   (main_skip_existing_policy ["x.mp3", "--no-skip"]
      { input := some "x.mp3", noSkip := true } rfl).2 (by decide)⟩

/-- Each failing record contributes its summary line to the batch summary. -/
theorem summaryLines_mem_failed (rs : List BatchResult) (r : BatchResult)
    (hr : r ∈ rs) (he : r.error.isSome = true) :
    OutEvent.line (failedLine r) ∈ summaryLines rs := by
  have hf2 : r ∈ List.filter (fun x => x.error.isSome) rs :=
    List.mem_filter.mpr ⟨hr, he⟩
  have hpos : 0 < (rs.filter (fun r => r.error.isSome)).length :=
    List.length_pos_of_mem hf2
  have hlt : (rs.filter (fun r => r.error = none)).length < rs.length := by
    have := batchResult_error_partition rs
    omega
  simp only [summaryLines]
  rw [if_pos hlt]
  refine List.mem_append_right _ (List.mem_cons_of_mem _ ?_)
  exact List.mem_filterMap.mpr ⟨r, hr, by simp [he]⟩

/-- C3.  In directory (batch) mode, a run whose scan completes always
returns exit code 0 — even when some per-item results are failures — and the
final summary enumerates every failed file with its error message. -/
theorem main_batch_summary (supported : List String) (fs : FS) (eff : Effects)
    (argv : List String) (a : Args) (p : String) (rs : List BatchResult)
    (ha : parse_args argv = .ok a) (hi : a.input = some p) (hp : p ≠ "")
    (hv : validate_input supported fs p = .ok p) (hc : eff.ctor = .ok ())
    (hd : fs.isFile p = false)
    (hs : eff.scanResults (mainSkipExisting a) = .ok rs) :
    (main supported fs eff argv).1 = 0 ∧
    (∀ r ∈ rs, r.error.isSome = true →
      OutEvent.line (failedLine r) ∈ (main supported fs eff argv).2) := by
  have hmain : main supported fs eff argv = (0, summaryLines rs) := by
    simp only [main, ha, hi, Option.getD]
    rw [if_neg hp]
    simp [mainBody, hv, hc, hd, hs, Bind.bind, Except.bind, Pure.pure, Except.pure]
  rw [hmain]
  exact ⟨rfl, fun r hr he => summaryLines_mem_failed rs r hr he⟩

/-- Concrete scan results for the C3 witness: one success, one failure. -/
def rsW : List BatchResult :=
  [{ file := some "a.mp3" }, { file := some "b.wav", error := some "decode failed" }]

/-- Concrete effects for the C3 witness. -/
def effW : Effects :=
  { scanResults := fun _ => .ok rsW }

/-- Witness for C3 at a concrete directory run with one failed file. -/
theorem main_batch_summary_witness :
    (main [".mp3"] { dirs := ["d"] } effW ["d"]).1 = 0 ∧
    OutEvent.line (failedLine { file := some "b.wav", error := some "decode failed" }) ∈
      (main [".mp3"] { dirs := ["d"] } effW ["d"]).2 := by
  have h := main_batch_summary [".mp3"] { dirs := ["d"] } effW ["d"]
    { input := some "d" } "d" rsW rfl rfl (by decide) (by rfl) rfl rfl (by rfl)
  exact ⟨h.1, h.2 { file := some "b.wav", error := some "decode failed" }
    (by decide) (by decide)⟩

/-- C4.  `validate_input` on a single-file input: a path that does not exist
fails with `FileNotFoundError` (the spec's `PathNotFoundError`); an existing
file whose extension is not in the supported set fails with `ValueError` (the
spec's `UnsupportedFormatError`); an existing file with a supported extension
validates successfully and yields exactly that path. -/
theorem validate_input_single_file (supported : List String) (fs : FS) (p : String) :
    (fs.exists? p = false →
      validate_input supported fs p =
        .error (.fileNotFound ("Input path not found: " ++ p))) ∧
    (fs.exists? p = true → fs.isFile p = true →
      pyLower (pathSuffix p) ∉ supported →
      validate_input supported fs p =
        .error (.valueError ("Unsupported file format: " ++ pathSuffix p))) ∧
    (fs.exists? p = true → fs.isFile p = true →
      pyLower (pathSuffix p) ∈ supported →
      validate_input supported fs p = .ok p) := by
  refine ⟨fun hne => ?_, fun he hf hns => ?_, fun he hf hsu => ?_⟩
  · simp [validate_input, hne]
  · simp [validate_input, he, hf, hns]
  · simp [validate_input, he, hf, hsu]

/-- Witness for C4 at three concrete inputs: a missing path, an unsupported
`.txt` file, and a supported `.mp3` file. -/
theorem validate_input_single_file_witness :
    validate_input [".mp3"] { files := ["a.mp3"] } "gone" =
      .error (.fileNotFound "Input path not found: gone") ∧
    validate_input [".mp3"] { files := ["b.txt"] } "b.txt" =
      .error (.valueError ("Unsupported file format: " ++ pathSuffix "b.txt")) ∧
    validate_input [".mp3"] { files := ["a.mp3"] } "a.mp3" = .ok "a.mp3" :=
  ⟨(validate_input_single_file [".mp3"] { files := ["a.mp3"] } "gone").1 (by decide),
   (validate_input_single_file [".mp3"] { files := ["b.txt"] } "b.txt").2.1
      (by decide) (by decide) (by decide),
   (validate_input_single_file [".mp3"] { files := ["a.mp3"] } "a.mp3").2.2
      (by decide) (by decide) (by decide)⟩

/-- C6.  Configuration precedence: an explicit caller-supplied language
override beats the environment, the file config and the built-in default; in
particular with default language `fa`, a file config language `en` and an
explicit override `ar`, any successful resolution yields language `ar`,
whatever the environment layer says. -/
theorem config_language_precedence (d : ResolvedTC) (fileCfg envCfg explicitCfg : PartialTC)
    (c : ResolvedTC) (hd : d.language = "fa") (hf : fileCfg.language = some "en")
    (he : explicitCfg.language = some "ar")
    (hr : resolveConfig d fileCfg envCfg explicitCfg = .ok c) :
    c.language = "ar" := by
  simp only [resolveConfig] at hr
  split at hr
  · injection hr with h2
    subst h2
    simp [he]
  · exact absurd hr (by simp)

/-- Witness for C6 at a concrete layering, with an environment layer that
also tries to set the language. -/
theorem config_language_precedence_witness :
    ({ language := "ar" } : ResolvedTC).language = "ar" :=
  config_language_precedence {} { language := some "en" }
    { language := some "tr" } { language := some "ar" } { language := "ar" }
    rfl rfl rfl (by rfl)

/-! ## Logging lemmas -/

/-- The cache phase answers the cache under the queried name. -/
theorem getLoggerCore_cache_hit (st0 : LogState) (n : String) :
    lookupStr (getLoggerCore st0 n).2.loggersCache n = some (getLoggerCore st0 n).1 := by
  rcases hl : lookupStr st0.loggersCache n with _ | i <;>
    simp [getLoggerCore, hl, lookupStr]

/-- The cache phase answers a pre-existing cache entry unchanged. -/
theorem getLoggerCore_cached (st0 : LogState) (n : String) (i : Nat)
    (h : lookupStr st0.loggersCache n = some i) : getLoggerCore st0 n = (i, st0) := by
  simp [getLoggerCore, h]

/-- The cache phase preserves the initialization mark. -/
theorem getLoggerCore_initialized (st0 : LogState) (n : String)
    (h : st0.initialized = true) : (getLoggerCore st0 n).2.initialized = true := by
  rcases hl : lookupStr st0.loggersCache n with _ | i <;>
    rcases hr : lookupStr st0.registry n with _ | j <;>
    simp [getLoggerCore, getLoggerRegistry, hl, hr, h]

/-- `setup_logging` always leaves the module marked initialized. -/
theorem setup_logging_initialized (disk : LogConfig) (args : SetupArgs)
    (st : LogState) : (setup_logging disk args st).initialized = true := by
  rcases hc : st.configCache with _ | c <;> simp [setup_logging, loadConfig, hc]

/-- The state `get_logger` starts its cache phase from is initialized. -/
theorem get_logger_start_initialized (disk : LogConfig) (st : LogState) :
    (if st.initialized then st else setup_logging disk {} st).initialized = true := by
  by_cases h : st.initialized = true
  · simp [h]
  · simp only [Bool.not_eq_true] at h
    simp [h, setup_logging_initialized]

/-- The normalized logger name always starts with the package prefix. -/
theorem normName_startsWith (name : String) :
    pyStartsWith (normName name) pkgName = true := by
  by_cases h : pyStartsWith name pkgName = true
  · simpa [normName, h] using h
  · have hn : normName name = pkgName ++ "." ++ name := by simp [normName, h]
    rw [hn]
    show pkgName.data.isPrefixOf ((pkgName ++ "." ++ name).data) = true
    rw [String.data_append, String.data_append, List.append_assoc]
    exact isPrefixOf_append_self pkgName.data _

/-- C9.  `get_logger` is idempotent and name-normalizing: calling it twice
with the same name returns the same logger identity (the `_loggers` cache
entry), the returned logger is cached under the normalized name, and the
normalized name starts with `persian_transcriber` — a name not already under
that prefix is rewritten to `persian_transcriber.` followed by the given
name — so every returned logger lies in the package logger hierarchy. -/
theorem get_logger_idempotent_normalizing (disk : LogConfig) (st : LogState)
    (name : String) :
    (get_logger disk (get_logger disk st name).2 name).1 =
      (get_logger disk st name).1 ∧
    lookupStr (get_logger disk st name).2.loggersCache (normName name) =
      some (get_logger disk st name).1 ∧
    pyStartsWith (normName name) pkgName = true ∧
    normName name =
      (if pyStartsWith name pkgName then name else pkgName ++ "." ++ name) := by
  refine ⟨?_, ?_, normName_startsWith name, rfl⟩
  · have hinit : (get_logger disk st name).2.initialized = true :=
      getLoggerCore_initialized _ _ (get_logger_start_initialized disk st)
    have hhit : lookupStr (get_logger disk st name).2.loggersCache (normName name) =
        some (get_logger disk st name).1 :=
      getLoggerCore_cache_hit _ _
    show (getLoggerCore
        (if (get_logger disk st name).2.initialized then (get_logger disk st name).2
         else setup_logging disk {} (get_logger disk st name).2) (normName name)).1 =
      (get_logger disk st name).1
    rw [hinit]
    simp only [if_true]
    rw [getLoggerCore_cached _ _ _ hhit]
  · exact getLoggerCore_cache_hit _ _

/-- The root logger `setup_logging` leaves behind, from any prior state. -/
theorem setup_logging_root (disk : LogConfig) (args : SetupArgs) (st : LogState) :
    (setup_logging disk args st).root =
      { handlers := freshHandlers args.quiet (resolveLevel args (loadConfig disk st).1)
          (resolveLogFile args (loadConfig disk st).1),
        propagate := false,
        level := resolveLevel args (loadConfig disk st).1 } := by
  rcases hc : st.configCache with _ | c <;> simp [setup_logging, loadConfig, hc]

/-- `setup_logging` leaves the loaded configuration cached. -/
theorem setup_logging_configCache (disk : LogConfig) (args : SetupArgs)
    (st : LogState) :
    (setup_logging disk args st).configCache = some (loadConfig disk st).1 := by
  rcases hc : st.configCache with _ | c <;> simp [setup_logging, loadConfig, hc]

/-- A cached configuration is what `_load_config` answers. -/
theorem loadConfig_fst_of_some (disk : LogConfig) (st : LogState) (c : LogConfig)
    (h : st.configCache = some c) : (loadConfig disk st).1 = c := by
  simp [loadConfig, h]

/-- C10.  `setup_logging` maintains a fixed handler invariant: after any
call, from any prior state, the package root logger has `propagate = False`
and its handler list is exactly the freshly built set for that call; a
console handler is attached exactly when `quiet` is false, a file handler is
attached exactly when a log file is resolved, and calling `setup_logging`
again builds the same handler list instead of accumulating handlers. -/
theorem setup_logging_handler_invariant (disk : LogConfig) (args : SetupArgs)
    (st : LogState) :
    (setup_logging disk args st).root.propagate = false ∧
    (setup_logging disk args st).root.handlers =
      freshHandlers args.quiet (resolveLevel args (loadConfig disk st).1)
        (resolveLogFile args (loadConfig disk st).1) ∧
    ((setup_logging disk args st).root.handlers.any Handler.isConsole) =
      !args.quiet ∧
    ((setup_logging disk args st).root.handlers.any Handler.isFile) =
      (resolveLogFile args (loadConfig disk st).1).isSome ∧
    (setup_logging disk args (setup_logging disk args st)).root.handlers =
      (setup_logging disk args st).root.handlers := by
  refine ⟨?_, ?_, ?_, ?_, ?_⟩
  · rw [setup_logging_root]
  · rw [setup_logging_root]
  · rw [setup_logging_root]
    rcases hlf : resolveLogFile args (loadConfig disk st).1 with _ | f <;>
      cases hq : args.quiet <;>
      simp [freshHandlers, Handler.isConsole, Handler.isFile]
  · rw [setup_logging_root]
    rcases hlf : resolveLogFile args (loadConfig disk st).1 with _ | f <;>
      cases hq : args.quiet <;>
      simp [freshHandlers, Handler.isConsole, Handler.isFile]
  · rw [setup_logging_root, setup_logging_root,
      loadConfig_fst_of_some disk _ _ (setup_logging_configCache disk args st)]

/-- Witness for C10 at a concrete quiet call over a fresh state with a
configured log file. -/
theorem setup_logging_handler_invariant_witness :
    (setup_logging { logFilePath := some "run.log" } { quiet := true } {}).root.propagate
        = false ∧
    (setup_logging { logFilePath := some "run.log" } { quiet := true } {}).root.handlers =
      freshHandlers true
        (resolveLevel { quiet := true }
          (loadConfig { logFilePath := some "run.log" } {}).1)
        (resolveLogFile { quiet := true }
          (loadConfig { logFilePath := some "run.log" } {}).1) ∧
    ((setup_logging { logFilePath := some "run.log" } { quiet := true } {}).root.handlers.any
        Handler.isConsole) = !true ∧
    ((setup_logging { logFilePath := some "run.log" } { quiet := true } {}).root.handlers.any
        Handler.isFile) =
      (resolveLogFile { quiet := true }
        (loadConfig { logFilePath := some "run.log" } {}).1).isSome ∧
    (setup_logging { logFilePath := some "run.log" } { quiet := true }
        (setup_logging { logFilePath := some "run.log" } { quiet := true } {})).root.handlers =
      (setup_logging { logFilePath := some "run.log" } { quiet := true } {}).root.handlers :=
  setup_logging_handler_invariant { logFilePath := some "run.log" } { quiet := true } {}

end VoiceTranscriber
